import Mathlib

/-
Verification of `thunder/executors/cudnn_layernormex.py`.

The module canonicalizes layer-norm operands into a fixed 4-D layout,
caches compiled cudnn graphs in a `functools.lru_cache(maxsize=1024)`
keyed on frozen-dataclass descriptors, executes cached graphs, and
exposes a compatibility checker.

External collaborators (torch, numpy, functools.lru_cache, the cudnn
graph API) are modelled by their documented behaviour; the module code
itself is translated directly.
-/

set_option autoImplicit false

namespace CudnnLayerNormEx

/-- torch element types (the ones relevant to this executor). -/
inductive TorchDtype
  | float32
  | float16
  | bfloat16
  | float64
  | uint8
  deriving DecidableEq, Repr

/-- A torch device: `cpu` or `cuda:index`.  A freshly allocated tensor on
device string "cuda" lands on the current default cuda device. -/
inductive TorchDevice
  | cpu
  | cuda (index : Int)
  deriving DecidableEq, Repr

/-- `device.index` in torch: `None` for the cpu device, the ordinal for a
cuda device. -/
def TorchDevice.index : TorchDevice → Option Int
  | .cpu => none
  | .cuda i => some i

/-- A live torch tensor, summarised by the attributes this module reads:
logical shape, memory strides, dtype and device. -/
structure TorchTensor where
  shape : List Nat
  stride : List Nat
  dtype : TorchDtype
  device : TorchDevice
  deriving DecidableEq, Repr

/-- The frozen dataclass `CudnnTensorAttributes(size, stride, dtype,
device_index)`.  Frozen dataclasses have structural (field-wise) equality
and hash, so values of this type serve as cache-key components. -/
structure CudnnTensorAttributes where
  size : List Nat
  stride : List Nat
  dtype : TorchDtype
  device_index : Option Int
  deriving DecidableEq, Repr

/-- `np.prod` on a sequence of non-negative integers (`np.prod` of an
empty sequence is 1). -/
def listProd (l : List Nat) : Nat := l.foldl (· * ·) 1

/-- Python `l[:-k]`: for `k = 0` this is `l[:0] = []`, otherwise the first
`len(l) - k` elements (empty when `k ≥ len(l)`). -/
def pySliceDropLast (l : List Nat) (k : Nat) : List Nat :=
  if k = 0 then [] else l.take (l.length - k)

/-- `_transform_layer_norm_inputs(a, normalized_shape, weight, bias)`:
canonicalizes the operands to the 4-D layout cudnn expects.

    elements_to_normalize = np.prod(normalized_shape)
    batch_size = np.prod(a.shape[: -len(normalized_shape)], dtype=int)
    assumed_stride = (elements_to_normalize, 1, 1, 1)
    a_4d      = CudnnTensorAttributes((batch_size, elements_to_normalize, 1, 1), assumed_stride, a.dtype, a.device.index)
    weight_4d = CudnnTensorAttributes((1, elements_to_normalize, 1, 1), assumed_stride, weight.dtype, weight.device.index)
    bias_4d   = CudnnTensorAttributes((1, elements_to_normalize, 1, 1), assumed_stride, bias.dtype, bias.device.index)
-/
def _transform_layer_norm_inputs (a : TorchTensor) (normalized_shape : List Nat)
    (weight bias : TorchTensor) :
    CudnnTensorAttributes × CudnnTensorAttributes × CudnnTensorAttributes :=
  let elements_to_normalize := listProd normalized_shape
  let batch_size := listProd (pySliceDropLast a.shape normalized_shape.length)
  let assumed_stride := [elements_to_normalize, 1, 1, 1]
  let a_4d : CudnnTensorAttributes :=
    ⟨[batch_size, elements_to_normalize, 1, 1], assumed_stride, a.dtype, a.device.index⟩
  let weight_4d : CudnnTensorAttributes :=
    ⟨[1, elements_to_normalize, 1, 1], assumed_stride, weight.dtype, weight.device.index⟩
  let bias_4d : CudnnTensorAttributes :=
    ⟨[1, elements_to_normalize, 1, 1], assumed_stride, bias.dtype, bias.device.index⟩
  (a_4d, weight_4d, bias_4d)

/-- A concrete float32 tensor of shape (8, 16, 64) on cuda:0, with
contiguous strides. -/
def sampleA : TorchTensor := ⟨[8, 16, 64], [1024, 64, 1], .float32, .cuda 0⟩

/-- A concrete float32 weight tensor of shape (64,) on cuda:0. -/
def sampleW : TorchTensor := ⟨[64], [1], .float32, .cuda 0⟩

/-- A concrete float32 bias tensor of shape (64,) on cuda:0. -/
def sampleB : TorchTensor := ⟨[64], [1], .float32, .cuda 0⟩

/-! ## The cudnn graph value built per cache miss -/

/-- cudnn.data_type values used by this module. -/
inductive CudnnDataType
  | FLOAT
  | DOUBLE
  | HALF
  | BFLOAT16
  | UINT8
  deriving DecidableEq, Repr

/-- `torch_to_cudnn_dtype` lives in `thunder.executors.cudnnex`, which is not
part of the given source.  The claims only need it to be a pure function of
the torch dtype; modelled as the evident translation. -/
def torch_to_cudnn_dtype : TorchDtype → CudnnDataType
  | .float32 => .FLOAT
  | .float16 => .HALF
  | .bfloat16 => .BFLOAT16
  | .float64 => .DOUBLE
  | .uint8 => .UINT8

/-- A symbolic tensor placeholder created by `graph.tensor(...)`. -/
structure CudnnSymTensor where
  name : String
  dim : List Nat
  stride : List Nat
  data_type : CudnnDataType
  is_pass_by_value : Bool
  deriving DecidableEq, Repr

/-- The value the cached builder returns, `(input, scale, bias, epsilon, Y,
graph)`: the symbolic placeholders, plus the output configuration the body
sets on `Y` (`set_data_type`, `set_stride`).  The compiled graph handle
itself is opaque to this model; it is a deterministic function of the same
descriptor fields. -/
structure CudnnBuiltGraph where
  input : CudnnSymTensor
  scale : CudnnSymTensor
  bias : CudnnSymTensor
  epsilon : CudnnSymTensor
  Y_data_type : CudnnDataType
  Y_stride : List Nat
  deriving DecidableEq, Repr

/-- The body of `_make_cudnn_layer_norm_graph(a_4d, weight_4d, bias_4d)`:
builds the four placeholders from the descriptors (the epsilon placeholder
has dim and stride `[1, 1, 1, 1]`, dtype FLOAT, and is pass-by-value) and
configures the output `Y` with the input descriptor's dtype and stride. -/
def _make_cudnn_layer_norm_graph_body
    (a_4d weight_4d bias_4d : CudnnTensorAttributes) : CudnnBuiltGraph :=
  { input := ⟨"input", a_4d.size, a_4d.stride, torch_to_cudnn_dtype a_4d.dtype, false⟩
    scale := ⟨"scale", weight_4d.size, weight_4d.stride, torch_to_cudnn_dtype weight_4d.dtype, false⟩
    bias := ⟨"bias", bias_4d.size, bias_4d.stride, torch_to_cudnn_dtype bias_4d.dtype, false⟩
    epsilon := ⟨"epsilon", [1, 1, 1, 1], [1, 1, 1, 1], CudnnDataType.FLOAT, true⟩
    Y_data_type := torch_to_cudnn_dtype a_4d.dtype
    Y_stride := a_4d.stride }

/-- Python exceptions this module can raise or propagate. -/
inductive PyError
  | attributeError (msg : String)
  | nameError (msg : String)
  | typeError (msg : String)
  | cudnnGraphBuildError
  deriving DecidableEq, Repr

/-! ## functools.lru_cache, modelled

The cache state is the association list of (key, value) entries in
most-recently-used-first order.  A hit returns the stored value and moves
the entry to the front; a miss invokes the wrapped function — if it raises,
the exception propagates and the cache is unchanged (lru_cache never caches
exceptions); if it returns, the entry is inserted at the front and the list
is truncated to the capacity, dropping the least-recently-used entries. -/

section LruModel

variable {K V E : Type} [DecidableEq K]

/-- Value bound to key `k` in the cache (keys of reachable states are
unique). -/
def lruLookup : List (K × V) → K → Option V
  | [], _ => none
  | (k2, v) :: rest, k => if k2 = k then some v else lruLookup rest k

/-- Remove the (first) entry with key `k`. -/
def lruRemove : List (K × V) → K → List (K × V)
  | [], _ => []
  | (k2, v) :: rest, k => if k2 = k then rest else (k2, v) :: lruRemove rest k

/-- One call of a function memoized with `functools.lru_cache(maxsize = cap)`:
returns the result, the new cache state, and how many times the wrapped
function was invoked (0 on a hit, 1 on a miss). -/
def lruCallE (cap : Nat) (f : K → Except E V) (st : List (K × V)) (k : K) :
    Except E V × List (K × V) × Nat :=
  match lruLookup st k with
  | some v => (Except.ok v, (k, v) :: lruRemove st k, 0)
  | none =>
    match f k with
    | Except.ok v => (Except.ok v, ((k, v) :: st).take cap, 1)
    | Except.error e => (Except.error e, st, 1)

/-- Run a sequence of calls, threading the cache state. -/
def lruRun (cap : Nat) (f : K → Except E V) : List (K × V) → List K → List (K × V)
  | st, [] => st
  | st, k :: ks => lruRun cap f (lruCallE cap f st k).2.1 ks

/-- The keys of a cache state, most recently used first. -/
def cacheKeys (st : List (K × V)) : List K := st.map Prod.fst

/-- Scanning a key list front (most recent) to back, key `x` is met strictly
before key `y` (also true when `y` is absent). -/
def hitsBefore (x y : K) : List K → Bool
  | [] => true
  | k :: ks => if k = y then false else if k = x then true else hitsBefore x y ks

end LruModel

/-! ## The cached graph builder and the argument-rewriting wrapper -/

/-- A cache key: the triple of canonical descriptors. -/
abbrev GraphKey :=
  CudnnTensorAttributes × CudnnTensorAttributes × CudnnTensorAttributes

/-- The state of `_make_cudnn_layer_norm_graph`'s lru cache. -/
abbrev GraphCacheState := List (GraphKey × CudnnBuiltGraph)

/-- Whether `graph.build([cudnn.heur_mode.A])` succeeds for a descriptor
triple is decided by the accelerator (driver and device state), outside the
given source; it is threaded through as an acceptance oracle.  On rejection
the builder raises. -/
def buildGraphChecked (accept : GraphKey → Bool) (k : GraphKey) :
    Except PyError CudnnBuiltGraph :=
  if accept k then Except.ok (_make_cudnn_layer_norm_graph_body k.1 k.2.1 k.2.2)
  else Except.error PyError.cudnnGraphBuildError

/-- The lru_cache(maxsize=1024) layer of `_make_cudnn_layer_norm_graph`,
keyed on the descriptor triple. -/
def cachedGraphCall (accept : GraphKey → Bool) (st : GraphCacheState)
    (k : GraphKey) : Except PyError CudnnBuiltGraph × GraphCacheState × Nat :=
  lruCallE 1024 (buildGraphChecked accept) st k

/-- A positional argument of the wrapped graph builder: either a live
torch.Tensor or an already-converted descriptor. -/
inductive GraphArg
  | tensor (t : TorchTensor)
  | attrs (d : CudnnTensorAttributes)
  deriving DecidableEq, Repr

/-- The message of the AttributeError raised by `args.device_index`. -/
def tupleNoDeviceIndexMsg : String :=
  "tuple object has no attribute device_index"

/-- Attribute access `args.device_index` where `args` is the python tuple of
positional arguments: tuples have no such attribute, so this raises
AttributeError unconditionally. -/
def tupleDeviceIndex (_args : List GraphArg) : Except PyError (Option Int) :=
  Except.error (PyError.attributeError tupleNoDeviceIndexMsg)

/-- One element of the list comprehension in
`make_cacheable_cudnn_graph_inputs`'s wrapper: a torch.Tensor argument is
meant to become `CudnnTensorAttributes(arg.size(), arg.stride(), arg.dtype,
args.device_index)` — but `args` is the argument tuple, so evaluating that
expression raises; a non-Tensor argument is passed through unchanged. -/
def wrapperConvertArg (args : List GraphArg) : GraphArg → Except PyError GraphArg
  | GraphArg.tensor t => do
      let di ← tupleDeviceIndex args
      pure (GraphArg.attrs ⟨t.shape, t.stride, t.dtype, di⟩)
  | GraphArg.attrs d => pure (GraphArg.attrs d)

/-- The list comprehension's traversal: elements are converted left to
right and the first exception raised wins. -/
def wrapperConvertList (args : List GraphArg) :
    List GraphArg → Except PyError (List GraphArg)
  | [] => Except.ok []
  | a :: rest => do
    let c ← wrapperConvertArg args a
    let cs ← wrapperConvertList args rest
    pure (c :: cs)

/-- The wrapper's whole argument rewrite (the list comprehension over
`args`). -/
def wrapperConvertArgs (args : List GraphArg) : Except PyError (List GraphArg) :=
  wrapperConvertList args args

/-- `_make_cudnn_layer_norm_graph(*args)` as the module defines it:
`make_cacheable_cudnn_graph_inputs` applied on top of the
lru_cache-memoized three-argument builder. -/
def _make_cudnn_layer_norm_graph (accept : GraphKey → Bool)
    (st : GraphCacheState) (args : List GraphArg) :
    Except PyError CudnnBuiltGraph × GraphCacheState × Nat :=
  match wrapperConvertArgs args with
  | Except.error e => (Except.error e, st, 0)
  | Except.ok cargs =>
    match cargs with
    | [GraphArg.attrs a_4d, GraphArg.attrs weight_4d, GraphArg.attrs bias_4d] =>
        cachedGraphCall accept st (a_4d, weight_4d, bias_4d)
    | _ => (Except.error (PyError.typeError "wrong number of arguments"), st, 0)

/-! ## layer_norm_impl and layer_norm_checker -/

/-- Row-major contiguous strides for a shape (what torch gives a freshly
allocated tensor). -/
def contiguousStrides : List Nat → List Nat
  | [] => []
  | _ :: rest => listProd rest :: contiguousStrides rest

/-- `torch.zeros_like(a, device=dev)`: a fresh tensor with `a`'s shape and
dtype, contiguous strides, allocated on `dev`.  In the source the device
argument is the string "cuda", which resolves to the current default cuda
device — not necessarily the device `a` lives on. -/
def zeros_like (a : TorchTensor) (dev : TorchDevice) : TorchTensor :=
  ⟨a.shape, contiguousStrides a.shape, a.dtype, dev⟩

/-- The host-resident epsilon buffer
`torch.full((1, 1, 1, 1), eps, dtype=torch.float32, device="cpu")`,
materialized afresh at each execution call. -/
structure EpsilonHostBuffer where
  shape : List Nat
  value : Rat
  dtype : TorchDtype
  device : TorchDevice
  deriving DecidableEq, Repr

/-- The message of the AttributeError raised by `None.dtype`. -/
def noneNoDtypeMsg : String := "NoneType object has no attribute dtype"

/-- `_transform_layer_norm_inputs` as reached with possibly-None weight/bias
(their declared defaults in the callers): `weight.dtype` (resp.
`bias.dtype`) on None raises AttributeError. -/
def transformLayerNormInputsPy (a : TorchTensor) (normalized_shape : List Nat)
    (weight bias : Option TorchTensor) :
    Except PyError
      (CudnnTensorAttributes × CudnnTensorAttributes × CudnnTensorAttributes) :=
  match weight, bias with
  | some w, some b => Except.ok (_transform_layer_norm_inputs a normalized_shape w b)
  | none, _ => Except.error (PyError.attributeError noneNoDtypeMsg)
  | some _, none => Except.error (PyError.attributeError noneNoDtypeMsg)

deriving instance DecidableEq for Except

/-- What a successful `layer_norm_impl` call produces: the freshly allocated
output tensor `Y_actual`, the host epsilon buffer bound to the graph's
epsilon placeholder in `cudnn_to_torch_tensor`, and the graph entry used. -/
structure LayerNormSuccess where
  output : TorchTensor
  epsilon_cpu : EpsilonHostBuffer
  graph : CudnnBuiltGraph
  deriving DecidableEq, Repr

/-- Result, post-call cache state, and number of graph compilations of one
`layer_norm_impl` call. -/
structure LayerNormOutcome where
  result : Except PyError LayerNormSuccess
  state : GraphCacheState
  compiles : Nat
  deriving DecidableEq, Repr

/-- `layer_norm_impl(a, normalized_shape, weight=None, bias=None, eps=1e-5)`:
canonicalize, compile-or-get the graph, allocate
`Y_actual = torch.zeros_like(a, device="cuda")`, materialize the epsilon
host buffer, bind buffers and execute.  `currentCudaDevice` is the device
the string "cuda" resolves to. -/
def layer_norm_impl (accept : GraphKey → Bool) (currentCudaDevice : Int)
    (st : GraphCacheState) (a : TorchTensor) (normalized_shape : List Nat)
    (weight bias : Option TorchTensor) (eps : Rat) : LayerNormOutcome :=
  match transformLayerNormInputsPy a normalized_shape weight bias with
  | Except.error e => ⟨Except.error e, st, 0⟩
  | Except.ok (a_4d, weight_4d, bias_4d) =>
    match _make_cudnn_layer_norm_graph accept st
        [GraphArg.attrs a_4d, GraphArg.attrs weight_4d, GraphArg.attrs bias_4d] with
    | (Except.error e, st2, n) => ⟨Except.error e, st2, n⟩
    | (Except.ok graph, st2, n) =>
      ⟨Except.ok
        ⟨zeros_like a (TorchDevice.cuda currentCudaDevice),
         ⟨[1, 1, 1, 1], eps, TorchDtype.float32, TorchDevice.cpu⟩,
         graph⟩, st2, n⟩

/-- `layer_norm_checker`.  `cudnnBound` records whether the module-level name
`cudnn` is bound: the module only binds it (to the imported cudnn module,
never to None) inside the `if cudnn_available():` block, so when the backend
is unavailable the name is unbound and evaluating `cudnn is None` raises
NameError; when bound, `cudnn is None` is False.
`_transform_layer_norm_inputs` is called OUTSIDE the try block, so whatever
it raises propagates; only the `_make_cudnn_layer_norm_graph` call is
guarded by the bare `except`, which converts any failure to False. -/
def layer_norm_checker (cudnnBound : Bool) (accept : GraphKey → Bool)
    (st : GraphCacheState) (a : TorchTensor) (normalized_shape : List Nat)
    (weight bias : Option TorchTensor) (eps : Rat) :
    Except PyError Bool × GraphCacheState × Nat :=
  if cudnnBound = false then
    (Except.error (PyError.nameError "name cudnn is not defined"), st, 0)
  else
    match transformLayerNormInputsPy a normalized_shape weight bias with
    | Except.error e => (Except.error e, st, 0)
    | Except.ok (a_4d, weight_4d, bias_4d) =>
      match _make_cudnn_layer_norm_graph accept st
          [GraphArg.attrs a_4d, GraphArg.attrs weight_4d, GraphArg.attrs bias_4d] with
      | (Except.error _, st2, n) => (Except.ok false, st2, n)
      | (Except.ok _, st2, n) => (Except.ok true, st2, n)

/-! ## Concrete fixtures for witnesses and counterexamples -/

/-- A sequence of graph-builder calls threading the cache state. -/
def cachedGraphRun (accept : GraphKey → Bool) (st : GraphCacheState)
    (ks : List GraphKey) : GraphCacheState :=
  lruRun 1024 (buildGraphChecked accept) st ks

/-- An accelerator that accepts every configuration. -/
def acceptAll : GraphKey → Bool := fun _ => true

/-- An accelerator that rejects every configuration. -/
def rejectAll : GraphKey → Bool := fun _ => false

/-- The default eps value 1e-5. -/
def defaultEps : Rat := 1 / 100000

/-- A float32 tensor of shape (8, 16, 64) living on cuda:1 (not the default
cuda device of the counterexample runtime). -/
def sampleA1 : TorchTensor := ⟨[8, 16, 64], [1024, 64, 1], .float32, .cuda 1⟩

/-- A float32 tensor with sampleA's shape, dtype and device but different
memory strides: a distinct buffer that canonicalizes to the same key. -/
def sampleA2 : TorchTensor := ⟨[8, 16, 64], [2048, 128, 2], .float32, .cuda 0⟩

/-- A degenerate input tensor of shape (2, 0) on cuda:0. -/
def degA : TorchTensor := ⟨[2, 0], [0, 1], .float32, .cuda 0⟩

/-- A degenerate weight tensor of shape (0,) on cuda:0. -/
def degW : TorchTensor := ⟨[0], [1], .float32, .cuda 0⟩

/-- A degenerate bias tensor of shape (0,) on cuda:0. -/
def degB : TorchTensor := ⟨[0], [1], .float32, .cuda 0⟩

/-- A second, distinct cache key fixture: float16 instead of float32. -/
def sampleKeyB : GraphKey :=
  _transform_layer_norm_inputs ⟨[8, 16, 64], [1024, 64, 1], .float16, .cuda 0⟩ [64]
    ⟨[64], [1], .float16, .cuda 0⟩ ⟨[64], [1], .float16, .cuda 0⟩

/-- The cache key of the (8, 16, 64) / (64,) float32 example. -/
def sampleKeyA : GraphKey := _transform_layer_norm_inputs sampleA [64] sampleW sampleB

/-- Two successive calls to the graph-building path, the second running on
the cache state the first left behind: first with key `k`, then with key
`k2`.  Returns both outcomes. -/
def graphCallPair (accept : GraphKey → Bool) (st : GraphCacheState)
    (k k2 : GraphKey) :
    (Except PyError CudnnBuiltGraph × GraphCacheState × Nat) ×
      (Except PyError CudnnBuiltGraph × GraphCacheState × Nat) :=
  let r1 := _make_cudnn_layer_norm_graph accept st
    [GraphArg.attrs k.1, GraphArg.attrs k.2.1, GraphArg.attrs k.2.2]
  let r2 := _make_cudnn_layer_norm_graph accept r1.2.1
    [GraphArg.attrs k2.1, GraphArg.attrs k2.2.1, GraphArg.attrs k2.2.2]
  (r1, r2)

/-! # Theorems

First the auxiliary lemmas about the python slice and the lru model, then
one theorem per claim. -/

/-- Dropping a non-empty suffix via the python slice `shape[:-len(ns)]`
recovers exactly the leading extents. -/
theorem pySliceDropLast_append (leading ns : List Nat) (h : ns ≠ []) :
    pySliceDropLast (leading ++ ns) ns.length = leading := by
  have hlen : ns.length ≠ 0 := by
    simpa [List.length_eq_zero] using h
  unfold pySliceDropLast
  rw [if_neg hlen]
  have hsub : (leading ++ ns).length - ns.length = leading.length := by
    simp [List.length_append]
  rw [hsub]
  exact List.take_left leading ns

section LruLemmas

variable {K V E : Type} [DecidableEq K]

/-- A key is absent from the cache iff lookup misses. -/
theorem lruLookup_eq_none_iff (st : List (K × V)) (k : K) :
    lruLookup st k = none ↔ k ∉ cacheKeys st := by
  induction st with
  | nil => simp [lruLookup, cacheKeys]
  | cons p rest ih =>
    obtain ⟨k2, v⟩ := p
    by_cases hk : k2 = k
    · subst hk; simp [lruLookup, cacheKeys]
    · simp [lruLookup, cacheKeys, hk, ih, Ne.symm hk]

/-- Lookup at the most recent entry. -/
theorem lruLookup_head (k : K) (v : V) (st : List (K × V)) :
    lruLookup ((k, v) :: st) k = some v := by
  simp [lruLookup]

/-- Removing a present key shortens the state by one. -/
theorem lruRemove_length (st : List (K × V)) (k : K)
    (h : lruLookup st k ≠ none) : (lruRemove st k).length + 1 = st.length := by
  induction st with
  | nil => simp [lruLookup] at h
  | cons p rest ih =>
    obtain ⟨k2, v⟩ := p
    by_cases hk : k2 = k
    · simp [lruRemove, hk]
    · simp only [lruLookup, hk, if_false] at h
      simp [lruRemove, hk, ← ih h]

/-- The cache never grows beyond its capacity. -/
theorem lruCallE_state_length (cap : Nat) (f : K → Except E V)
    (st : List (K × V)) (k : K) (h : st.length ≤ cap) :
    ((lruCallE cap f st k).2.1).length ≤ cap := by
  unfold lruCallE
  cases hl : lruLookup st k with
  | some v =>
    have hlen := lruRemove_length st k (by simp [hl])
    simp only [List.length_cons]
    omega
  | none =>
    cases hf : f k with
    | ok v => simp
    | error e => simpa using h

/-- A cache hit returns the stored value, moves it to the front, and does
not invoke the wrapped function. -/
theorem lruCallE_hit (cap : Nat) (f : K → Except E V) (st : List (K × V))
    (k : K) (v : V) (h : lruLookup st k = some v) :
    lruCallE cap f st k = (Except.ok v, (k, v) :: lruRemove st k, 0) := by
  simp [lruCallE, h]

/-- A miss with a succeeding wrapped function inserts at the front and
truncates to the capacity. -/
theorem lruCallE_miss_ok (cap : Nat) (f : K → Except E V) (st : List (K × V))
    (k : K) (v : V) (hm : lruLookup st k = none) (hf : f k = Except.ok v) :
    lruCallE cap f st k = (Except.ok v, ((k, v) :: st).take cap, 1) := by
  simp [lruCallE, hm, hf]

/-- A miss with a raising wrapped function propagates the exception and
leaves the cache unchanged. -/
theorem lruCallE_miss_error (cap : Nat) (f : K → Except E V)
    (st : List (K × V)) (k : K) (e : E) (hm : lruLookup st k = none)
    (hf : f k = Except.error e) :
    lruCallE cap f st k = (Except.error e, st, 1) := by
  simp [lruCallE, hm, hf]

/-- After a call that returned a value, the key is cached with that value. -/
theorem lruCallE_ok_lookup (cap : Nat) (f : K → Except E V)
    (st : List (K × V)) (k : K) (v : V) (hcap : 0 < cap)
    (h : (lruCallE cap f st k).1 = Except.ok v) :
    lruLookup (lruCallE cap f st k).2.1 k = some v := by
  unfold lruCallE at h ⊢
  cases hl : lruLookup st k with
  | some v0 =>
    simp [hl] at h ⊢
    simpa [lruLookup] using h
  | none =>
    cases hf : f k with
    | ok v0 =>
      obtain ⟨m, rfl⟩ : ∃ m, cap = m + 1 := ⟨cap - 1, by omega⟩
      simp [hl, hf] at h ⊢
      simpa [List.take_succ_cons, lruLookup] using h
    | error e => simp [hl, hf] at h

omit [DecidableEq K] in
/-- `cacheKeys` commutes with truncation. -/
theorem cacheKeys_take (st : List (K × V)) (n : Nat) :
    cacheKeys (st.take n) = (cacheKeys st).take n := by
  simp [cacheKeys, List.map_take]

/-- Pushing at the front of an already-truncated list and re-truncating is
truncating the pushed list. -/
theorem take_cons_take {α : Type} (k : α) (l : List α) (cap : Nat) :
    (k :: l.take cap).take cap = (k :: l).take cap := by
  cases cap with
  | zero => simp
  | succ n =>
    simp [List.take_succ_cons, List.take_take, Nat.min_eq_left (Nat.le_succ n)]

/-- Unfolding a run at its last call. -/
theorem lruRun_append (cap : Nat) (f : K → Except E V) (st : List (K × V))
    (ks : List K) (k : K) :
    lruRun cap f st (ks ++ [k]) = (lruCallE cap f (lruRun cap f st ks) k).2.1 := by
  induction ks generalizing st with
  | nil => simp [lruRun]
  | cons k2 ks ih => simp [lruRun, ih]

/-- Inserting distinct, all-compilable keys into an empty cache keeps
exactly the most recent `cap` of them, most recent first: eviction is
strict least-recently-used. -/
theorem lruRun_distinct_keys (cap : Nat) (f : K → Except E V) (ks : List K)
    (hnd : ks.Nodup) (hok : ∀ k ∈ ks, ∃ v, f k = Except.ok v) :
    cacheKeys (lruRun cap f [] ks) = ks.reverse.take cap := by
  induction ks using List.reverseRecOn with
  | nil => simp [lruRun, cacheKeys]
  | append_singleton ks k ih =>
    have hnd2 : ks.Nodup := (List.nodup_append.mp hnd).1
    have hknot : k ∉ ks := by
      intro hk
      exact (List.nodup_append.mp hnd).2.2 hk (by simp)
    have hkeys := ih hnd2 (fun k2 hk2 => hok k2 (by simp [hk2]))
    rw [lruRun_append]
    have hknotst : k ∉ cacheKeys (lruRun cap f [] ks) := by
      rw [hkeys]
      intro hmem
      exact hknot (by simpa using List.mem_of_mem_take hmem)
    obtain ⟨v, hv⟩ := hok k (by simp)
    rw [lruCallE_miss_ok cap f _ k v ((lruLookup_eq_none_iff _ _).mpr hknotst) hv]
    simp only [cacheKeys_take]
    have : cacheKeys ((k, v) :: lruRun cap f [] ks) = k :: cacheKeys (lruRun cap f [] ks) := by
      simp [cacheKeys]
    rw [this, hkeys, take_cons_take]
    simp

/-- Truncation cannot make an absent key present. -/
theorem lruLookup_take_none (st : List (K × V)) (k : K) (n : Nat)
    (h : lruLookup st k = none) : lruLookup (st.take n) k = none := by
  rw [lruLookup_eq_none_iff] at h ⊢
  rw [cacheKeys_take]
  intro hmem
  exact h (List.mem_of_mem_take hmem)

/-- Lookup skips a fresh front entry with a different key. -/
theorem lruLookup_cons_ne (st : List (K × V)) (k k2 : K) (v : V)
    (h : k ≠ k2) : lruLookup ((k, v) :: st) k2 = lruLookup st k2 := by
  simp [lruLookup, h]

/-- A key list headed by `x` certifies `x` ahead of any other `y`. -/
theorem hitsBefore_cons_self (x y : K) (l : List K) (h : x ≠ y) :
    hitsBefore x y (x :: l) = true := by
  simp [hitsBefore, h]

/-- A foreign key at the front does not change who is met first. -/
theorem hitsBefore_cons_other (x y k : K) (l : List K) (hx : k ≠ x)
    (hy : k ≠ y) : hitsBefore x y (k :: l) = hitsBefore x y l := by
  simp [hitsBefore, hx, hy]

/-- Truncation (eviction from the back) preserves who is met first. -/
theorem hitsBefore_take (x y : K) (l : List K) (n : Nat)
    (h : hitsBefore x y l = true) : hitsBefore x y (l.take n) = true := by
  induction l generalizing n with
  | nil => simp [hitsBefore]
  | cons k l ih =>
    cases n with
    | zero => simp [hitsBefore]
    | succ m =>
      by_cases hky : k = y
      · subst hky; simp [hitsBefore] at h
      · by_cases hkx : k = x
        · subst hkx
          simp [List.take_succ_cons, hitsBefore, hky]
        · rw [hitsBefore_cons_other x y k l hkx hky] at h
          simpa [List.take_succ_cons, hitsBefore_cons_other x y k _ hkx hky]
            using ih (n := m) h

/-- If `x` is met first and `y` is present, so is `x`. -/
theorem hitsBefore_mem (x y : K) (l : List K) (h : hitsBefore x y l = true)
    (hy : y ∈ l) : x ∈ l := by
  induction l with
  | nil => simp at hy
  | cons k l ih =>
    by_cases hky : k = y
    · subst hky; simp [hitsBefore] at h
    · by_cases hkx : k = x
      · simp [hkx]
      · rw [hitsBefore_cons_other x y k l hkx hky] at h
        have hy2 : y ∈ l := by
          rcases List.mem_cons.mp hy with h1 | h1
          · exact absurd h1.symm hky
          · exact h1
        exact List.mem_cons.mpr (Or.inr (ih h hy2))

/-- Removing a foreign entry preserves who is met first. -/
theorem hitsBefore_remove (x y k : K) (st : List (K × V)) (hx : k ≠ x)
    (hy : k ≠ y) (h : hitsBefore x y (cacheKeys st) = true) :
    hitsBefore x y (cacheKeys (lruRemove st k)) = true := by
  induction st with
  | nil => simpa [lruRemove] using h
  | cons p rest ih =>
    obtain ⟨k2, v⟩ := p
    by_cases hk2 : k2 = k
    · subst hk2
      rw [show cacheKeys ((k2, v) :: rest) = k2 :: cacheKeys rest from rfl,
        hitsBefore_cons_other x y k2 _ hx hy] at h
      simpa [lruRemove] using h
    · by_cases hk2y : k2 = y
      · subst hk2y
        simp [cacheKeys, hitsBefore] at h
      · by_cases hk2x : k2 = x
        · have hxy : x ≠ y := by rw [← hk2x]; exact hk2y
          simp only [lruRemove, hk2, if_false, cacheKeys, List.map_cons]
          rw [hk2x]
          exact hitsBefore_cons_self x y _ hxy
        · rw [show cacheKeys ((k2, v) :: rest) = k2 :: cacheKeys rest from rfl,
            hitsBefore_cons_other x y k2 _ hk2x hk2y] at h
          have := ih h
          simpa [lruRemove, hk2, cacheKeys,
            hitsBefore_cons_other x y k2 _ hk2x hk2y] using this

/-- A call on key `x` that yields a value puts `x` ahead of every other
key. -/
theorem hitsBefore_call_self (cap : Nat) (f : K → Except E V)
    (st : List (K × V)) (x y : K) (v : V) (hxy : x ≠ y) (hcap : 0 < cap)
    (h : (lruCallE cap f st x).1 = Except.ok v) :
    hitsBefore x y (cacheKeys (lruCallE cap f st x).2.1) = true := by
  unfold lruCallE at h ⊢
  cases hl : lruLookup st x with
  | some v0 =>
    simp only [hl]
    exact hitsBefore_cons_self x y _ hxy
  | none =>
    cases hf : f x with
    | ok v0 =>
      obtain ⟨m, rfl⟩ : ∃ m, cap = m + 1 := ⟨cap - 1, by omega⟩
      simp only [hl, hf]
      rw [show cacheKeys (((x, v0) :: st).take (m + 1))
          = x :: (cacheKeys st).take m by
        simp [List.take_succ_cons, cacheKeys, List.map_take]]
      exact hitsBefore_cons_self x y _ hxy
    | error e => simp [hl, hf] at h

/-- A call on a foreign key preserves `x` being ahead of `y`. -/
theorem hitsBefore_call_other (cap : Nat) (f : K → Except E V)
    (st : List (K × V)) (x y k : K) (hx : k ≠ x) (hy : k ≠ y)
    (h : hitsBefore x y (cacheKeys st) = true) :
    hitsBefore x y (cacheKeys (lruCallE cap f st k).2.1) = true := by
  unfold lruCallE
  cases hl : lruLookup st k with
  | some v =>
    simp only
    rw [show cacheKeys ((k, v) :: lruRemove st k)
        = k :: cacheKeys (lruRemove st k) from rfl,
      hitsBefore_cons_other x y k _ hx hy]
    exact hitsBefore_remove x y k st hx hy h
  | none =>
    cases hf : f k with
    | ok v =>
      simp only
      rw [cacheKeys_take,
        show cacheKeys ((k, v) :: st) = k :: cacheKeys st from rfl]
      refine hitsBefore_take x y _ cap ?_
      rw [hitsBefore_cons_other x y k _ hx hy]
      exact h
    | error e => simpa using h

/-- A run of calls on foreign keys preserves `x` being ahead of `y`. -/
theorem hitsBefore_run (cap : Nat) (f : K → Except E V) (st : List (K × V))
    (x y : K) (ks : List K) (hks : ∀ k ∈ ks, k ≠ x ∧ k ≠ y)
    (h : hitsBefore x y (cacheKeys st) = true) :
    hitsBefore x y (cacheKeys (lruRun cap f st ks)) = true := by
  induction ks generalizing st with
  | nil => simpa [lruRun] using h
  | cons k ks ih =>
    have hk := hks k (by simp)
    exact ih ((lruCallE cap f st k).2.1)
      (fun k2 hk2 => hks k2 (List.mem_cons.mpr (Or.inr hk2)))
      (hitsBefore_call_other cap f st x y k hk.1 hk.2 h)

end LruLemmas

/-- Field-wise equal descriptors are equal (structural equality of the
frozen dataclass). -/
theorem CudnnTensorAttributes.fieldwise_eq (d d2 : CudnnTensorAttributes)
    (h1 : d.size = d2.size) (h2 : d.stride = d2.stride)
    (h3 : d.dtype = d2.dtype) (h4 : d.device_index = d2.device_index) :
    d = d2 := by
  cases d; cases d2; simp_all

/-- On already-converted descriptor arguments the wrapper passes everything
through unchanged and the call reaches the cached builder keyed on the
descriptor triple. -/
theorem make_graph_on_attrs (accept : GraphKey → Bool) (st : GraphCacheState)
    (a_4d weight_4d bias_4d : CudnnTensorAttributes) :
    _make_cudnn_layer_norm_graph accept st
      [GraphArg.attrs a_4d, GraphArg.attrs weight_4d, GraphArg.attrs bias_4d]
      = cachedGraphCall accept st (a_4d, weight_4d, bias_4d) := rfl

/-- When the accelerator accepts a key, the cached call returns a graph
(on a hit, the stored one; on a miss, the freshly built one). -/
theorem cachedGraphCall_ok (accept : GraphKey → Bool) (st : GraphCacheState)
    (k : GraphKey) (hacc : accept k = true) :
    ∃ g, (cachedGraphCall accept st k).1 = Except.ok g := by
  unfold cachedGraphCall lruCallE
  cases hl : lruLookup st k with
  | some v => exact ⟨v, rfl⟩
  | none =>
    exact ⟨_make_cudnn_layer_norm_graph_body k.1 k.2.1 k.2.2,
      by simp [buildGraphChecked, hacc]⟩

/-- `np.prod` of a shape containing a zero extent is zero. -/
theorem listProd_eq_zero (l : List Nat) (h : 0 ∈ l) : listProd l = 0 := by
  have : listProd l = l.prod := by
    simp [listProd, List.prod_eq_foldl]
  rw [this]
  exact List.prod_eq_zero h

/-- C1: for every input tensor whose shape is `leading ++ normalized_shape`
with `normalized_shape` non-empty, the canonicalizer returns exactly three
descriptors in the fixed 4-D layout: the input descriptor has extents
(N, C, 1, 1) with C = prod normalized_shape and N = prod leading (so N = 1
when the input rank equals the normalized-shape rank), weight and bias have
extents (1, C, 1, 1), all three carry the assumed-contiguous strides
(C, 1, 1, 1) and the corresponding tensor's dtype and device index; the
result is independent of the tensors' actual memory strides; and input
shape (8, 16, 64) with normalized shape (64,) yields N = 128, C = 64. -/
theorem C1_shape_canonicalizer (a weight bias : TorchTensor)
    (leading normalized_shape : List Nat)
    (hns : normalized_shape ≠ [])
    (hshape : a.shape = leading ++ normalized_shape) :
    (_transform_layer_norm_inputs a normalized_shape weight bias =
      (⟨[listProd leading, listProd normalized_shape, 1, 1],
        [listProd normalized_shape, 1, 1, 1], a.dtype, a.device.index⟩,
       ⟨[1, listProd normalized_shape, 1, 1],
        [listProd normalized_shape, 1, 1, 1], weight.dtype, weight.device.index⟩,
       ⟨[1, listProd normalized_shape, 1, 1],
        [listProd normalized_shape, 1, 1, 1], bias.dtype, bias.device.index⟩)) ∧
    (a.shape.length = normalized_shape.length → listProd leading = 1) ∧
    (∀ a2 w2 b2 : TorchTensor,
      a2.shape = a.shape → a2.dtype = a.dtype → a2.device = a.device →
      w2.dtype = weight.dtype → w2.device = weight.device →
      b2.dtype = bias.dtype → b2.device = bias.device →
      _transform_layer_norm_inputs a2 normalized_shape w2 b2 =
        _transform_layer_norm_inputs a normalized_shape weight bias) ∧
    (_transform_layer_norm_inputs sampleA [64] sampleW sampleB).1.size
      = [128, 64, 1, 1] := by
  refine ⟨?_, ?_, ?_, ?_⟩
  · simp [_transform_layer_norm_inputs, hshape, pySliceDropLast_append _ _ hns]
  · intro hrank
    have : leading.length = 0 := by
      have hlen2 : leading.length + normalized_shape.length
          = normalized_shape.length := by
        rw [← List.length_append, ← hshape]; exact hrank
      omega
    have hnil : leading = [] := List.length_eq_zero.mp this
    simp [hnil, listProd]
  · intro a2 w2 b2 hsh hdt hdev hwdt hwdev hbdt hbdev
    simp [_transform_layer_norm_inputs, hsh, hdt, hdev, hwdt, hwdev, hbdt, hbdev]
  · decide

/-- C1 witness: the theorem instantiated at the concrete (8, 16, 64) /
(64,) example. -/
theorem C1_shape_canonicalizer_witness :
    (_transform_layer_norm_inputs sampleA [64] sampleW sampleB).1.size
      = [128, 64, 1, 1] :=
  (C1_shape_canonicalizer sampleA sampleW sampleB [8, 16] [64]
    (by decide) (by decide)).2.2.2

/-- C2: two graph-building calls whose descriptor triples agree field-wise
share one cache entry — the first call compiles once, the second returns
the cached entry with no builder invocation — while a second call whose
triple differs in any field is a distinct key that compiles on its own. -/
theorem C2_cache_key_equivalence (accept : GraphKey → Bool)
    (st : GraphCacheState) (k : GraphKey)
    (hmiss : lruLookup st k = none) (hacc : accept k = true) :
    (∀ k2 : GraphKey,
      k2.1.size = k.1.size → k2.1.stride = k.1.stride →
      k2.1.dtype = k.1.dtype → k2.1.device_index = k.1.device_index →
      k2.2.1.size = k.2.1.size → k2.2.1.stride = k.2.1.stride →
      k2.2.1.dtype = k.2.1.dtype → k2.2.1.device_index = k.2.1.device_index →
      k2.2.2.size = k.2.2.size → k2.2.2.stride = k.2.2.stride →
      k2.2.2.dtype = k.2.2.dtype → k2.2.2.device_index = k.2.2.device_index →
      (graphCallPair accept st k k2).1.2.2 = 1 ∧
      (graphCallPair accept st k k2).2.1 = (graphCallPair accept st k k2).1.1 ∧
      (graphCallPair accept st k k2).2.2.2 = 0) ∧
    (∀ k2 : GraphKey, k2 ≠ k → lruLookup st k2 = none → accept k2 = true →
      (graphCallPair accept st k k2).1.2.2 = 1 ∧
      (graphCallPair accept st k k2).2.2.2 = 1) := by
  have hbuild : buildGraphChecked accept k
      = Except.ok (_make_cudnn_layer_norm_graph_body k.1 k.2.1 k.2.2) := by
    simp [buildGraphChecked, hacc]
  have hr1 : _make_cudnn_layer_norm_graph accept st
      [GraphArg.attrs k.1, GraphArg.attrs k.2.1, GraphArg.attrs k.2.2]
      = (Except.ok (_make_cudnn_layer_norm_graph_body k.1 k.2.1 k.2.2),
        ((k, _make_cudnn_layer_norm_graph_body k.1 k.2.1 k.2.2) :: st).take 1024,
        1) := by
    rw [make_graph_on_attrs]
    unfold cachedGraphCall
    exact lruCallE_miss_ok 1024 _ st k _ hmiss hbuild
  constructor
  · intro k2 h1 h2 h3 h4 h5 h6 h7 h8 h9 h10 h11 h12
    have hk2 : k2 = k := by
      obtain ⟨ka, kb, kc⟩ := k
      obtain ⟨k2a, k2b, k2c⟩ := k2
      simp only at h1 h2 h3 h4 h5 h6 h7 h8 h9 h10 h11 h12
      rw [CudnnTensorAttributes.fieldwise_eq k2a ka h1 h2 h3 h4,
        CudnnTensorAttributes.fieldwise_eq k2b kb h5 h6 h7 h8,
        CudnnTensorAttributes.fieldwise_eq k2c kc h9 h10 h11 h12]
    subst hk2
    have hlook : lruLookup
        (((k2, _make_cudnn_layer_norm_graph_body k2.1 k2.2.1 k2.2.2) :: st).take 1024)
        k2 = some (_make_cudnn_layer_norm_graph_body k2.1 k2.2.1 k2.2.2) := by
      simpa [List.take_succ_cons] using
        lruLookup_head k2 (_make_cudnn_layer_norm_graph_body k2.1 k2.2.1 k2.2.2)
          (st.take 1023)
    refine ⟨by simp [graphCallPair, hr1], ?_, ?_⟩
    · simp only [graphCallPair, hr1, make_graph_on_attrs]
      unfold cachedGraphCall
      rw [lruCallE_hit 1024 _ _ k2 _ hlook]
    · simp only [graphCallPair, hr1, make_graph_on_attrs]
      unfold cachedGraphCall
      rw [lruCallE_hit 1024 _ _ k2 _ hlook]
  · intro k2 hne hmiss2 hacc2
    have hbuild2 : buildGraphChecked accept k2
        = Except.ok (_make_cudnn_layer_norm_graph_body k2.1 k2.2.1 k2.2.2) := by
      simp [buildGraphChecked, hacc2]
    have hmiss2b : lruLookup
        (((k, _make_cudnn_layer_norm_graph_body k.1 k.2.1 k.2.2) :: st).take 1024)
        k2 = none := by
      refine lruLookup_take_none _ k2 1024 ?_
      rw [lruLookup_cons_ne st k k2 _ (fun h => hne h.symm)]
      exact hmiss2
    refine ⟨by simp [graphCallPair, hr1], ?_⟩
    simp only [graphCallPair, hr1, make_graph_on_attrs]
    unfold cachedGraphCall
    rw [lruCallE_miss_ok 1024 _ _ k2 _ hmiss2b hbuild2]

/-- C2 witness: with an empty cache, repeating the concrete float32 key
hits (no second compilation) while a float16 key misses and compiles. -/
theorem C2_cache_key_equivalence_witness :
    (graphCallPair acceptAll [] sampleKeyA sampleKeyA).2.2.2 = 0 ∧
    (graphCallPair acceptAll [] sampleKeyA sampleKeyB).2.2.2 = 1 := by
  have h := C2_cache_key_equivalence acceptAll [] sampleKeyA rfl rfl
  exact ⟨(h.1 sampleKeyA rfl rfl rfl rfl rfl rfl rfl rfl rfl rfl rfl rfl).2.2,
    (h.2 sampleKeyB (by decide) rfl rfl).2⟩

/-- C3: the graph cache is bounded by the fixed capacity 1024; inserting a
run of distinct compilable keys keeps exactly the most recently used 1024
of them, in recency order (strict least-recently-used eviction); and once a
key `x` is accessed, no sequence of calls on other keys evicts `x` while a
not-accessed key `y` survives. -/
theorem C3_bounded_lru_eviction (accept : GraphKey → Bool) :
    (∀ (st : GraphCacheState) (k : GraphKey), st.length ≤ 1024 →
      ((cachedGraphCall accept st k).2.1).length ≤ 1024) ∧
    (∀ ks : List GraphKey, ks.Nodup → (∀ k ∈ ks, accept k = true) →
      cacheKeys (cachedGraphRun accept [] ks) = ks.reverse.take 1024) ∧
    (∀ (st : GraphCacheState) (x y : GraphKey) (ks : List GraphKey),
      x ≠ y → accept x = true → (∀ k ∈ ks, k ≠ x ∧ k ≠ y) →
      y ∈ cacheKeys (cachedGraphRun accept (cachedGraphCall accept st x).2.1 ks) →
      x ∈ cacheKeys (cachedGraphRun accept (cachedGraphCall accept st x).2.1 ks)) := by
  refine ⟨?_, ?_, ?_⟩
  · intro st k h
    exact lruCallE_state_length 1024 _ st k h
  · intro ks hnd hok
    exact lruRun_distinct_keys 1024 _ ks hnd
      (fun k hk => by
        exact ⟨_make_cudnn_layer_norm_graph_body k.1 k.2.1 k.2.2,
          by simp [buildGraphChecked, hok k hk]⟩)
  · intro st x y ks hxy haccx hks hy
    obtain ⟨g, hg⟩ := cachedGraphCall_ok accept st x haccx
    have hfront : hitsBefore x y
        (cacheKeys (cachedGraphCall accept st x).2.1) = true :=
      hitsBefore_call_self 1024 _ st x y g hxy (by omega) hg
    have hrun : hitsBefore x y
        (cacheKeys (cachedGraphRun accept (cachedGraphCall accept st x).2.1 ks))
        = true :=
      hitsBefore_run 1024 _ _ x y ks hks hfront
    exact hitsBefore_mem x y _ hrun hy

/-- C3 witness: the eviction-order characterization instantiated at a
concrete two-key run. -/
theorem C3_bounded_lru_eviction_witness :
    cacheKeys (cachedGraphRun acceptAll [] [sampleKeyA, sampleKeyB])
      = [sampleKeyA, sampleKeyB].reverse.take 1024 :=
  (C3_bounded_lru_eviction acceptAll).2.1 [sampleKeyA, sampleKeyB]
    (by decide) (by decide)

/-- C7: when compilation on a cache miss fails, the exception propagates,
nothing is inserted for that key, and a subsequent call with the same key
invokes the builder again — succeeding if the accelerator now accepts the
configuration (failures are not cached as permanent). -/
theorem C7_failed_compilation_not_cached (accept1 accept2 : GraphKey → Bool)
    (st : GraphCacheState) (k : GraphKey) (hmiss : lruLookup st k = none)
    (hrej : accept1 k = false) :
    (_make_cudnn_layer_norm_graph accept1 st
      [GraphArg.attrs k.1, GraphArg.attrs k.2.1, GraphArg.attrs k.2.2]
      = (Except.error PyError.cudnnGraphBuildError, st, 1)) ∧
    ((_make_cudnn_layer_norm_graph accept2 st
      [GraphArg.attrs k.1, GraphArg.attrs k.2.1, GraphArg.attrs k.2.2]).2.2
      = 1) ∧
    (accept2 k = true →
      (_make_cudnn_layer_norm_graph accept2 st
        [GraphArg.attrs k.1, GraphArg.attrs k.2.1, GraphArg.attrs k.2.2]).1
        = Except.ok (_make_cudnn_layer_norm_graph_body k.1 k.2.1 k.2.2)) := by
  have hb1 : buildGraphChecked accept1 k = Except.error PyError.cudnnGraphBuildError := by
    simp [buildGraphChecked, hrej]
  refine ⟨?_, ?_, ?_⟩
  · rw [make_graph_on_attrs]
    unfold cachedGraphCall
    exact lruCallE_miss_error 1024 _ st k _ hmiss hb1
  · rw [make_graph_on_attrs]
    unfold cachedGraphCall lruCallE
    cases hb2 : buildGraphChecked accept2 k <;> simp [hmiss, hb2]
  · intro hacc2
    rw [make_graph_on_attrs]
    unfold cachedGraphCall
    rw [lruCallE_miss_ok 1024 _ st k
      (_make_cudnn_layer_norm_graph_body k.1 k.2.1 k.2.2) hmiss
      (by simp [buildGraphChecked, hacc2])]

/-- C7 witness: the retry behaviour at the concrete float32 key, with an
accelerator that rejects on the first call and accepts on the retry. -/
theorem C7_failed_compilation_not_cached_witness :
    (_make_cudnn_layer_norm_graph rejectAll []
      [GraphArg.attrs sampleKeyA.1, GraphArg.attrs sampleKeyA.2.1,
        GraphArg.attrs sampleKeyA.2.2]
      = (Except.error PyError.cudnnGraphBuildError, [], 1)) ∧
    (_make_cudnn_layer_norm_graph acceptAll []
      [GraphArg.attrs sampleKeyA.1, GraphArg.attrs sampleKeyA.2.1,
        GraphArg.attrs sampleKeyA.2.2]).1
      = Except.ok (_make_cudnn_layer_norm_graph_body sampleKeyA.1
          sampleKeyA.2.1 sampleKeyA.2.2) := by
  have h := C7_failed_compilation_not_cached rejectAll acceptAll [] sampleKeyA rfl rfl
  exact ⟨h.1, h.2.2 rfl⟩

/-- C4 counterexample: the claim says the output carries the input's
device, but `torch.zeros_like(a, device="cuda")` allocates on the current
default cuda device.  For an input on cuda:1 while the current device is
cuda:0, the output lands on cuda:0 — not the input's device. -/
theorem C4_counterexample :
    (layer_norm_impl acceptAll 0 [] sampleA1 [64] (some sampleW) (some sampleB)
      defaultEps).result.map (fun s => s.output.device)
      = Except.ok (TorchDevice.cuda 0) ∧
    sampleA1.device = TorchDevice.cuda 1 := by
  constructor
  · rfl
  · rfl

/-- C4 (amended): a successful execution call returns an output with the
input's logical shape S (not the canonical 4-D shape) and the input's
dtype, allocated on the current default cuda device — which coincides with
the input's device exactly when the input lives on the current cuda
device. -/
theorem C4_output_shape_dtype_device (accept : GraphKey → Bool)
    (currentCudaDevice : Int) (st : GraphCacheState) (a w b : TorchTensor)
    (ns : List Nat) (eps : Rat)
    (hacc : accept (_transform_layer_norm_inputs a ns w b) = true) :
    ∃ s, (layer_norm_impl accept currentCudaDevice st a ns (some w) (some b)
        eps).result = Except.ok s ∧
      s.output.shape = a.shape ∧ s.output.dtype = a.dtype ∧
      s.output.device = TorchDevice.cuda currentCudaDevice ∧
      (a.device = TorchDevice.cuda currentCudaDevice →
        s.output.device = a.device) := by
  obtain ⟨g, hg⟩ :=
    cachedGraphCall_ok accept st (_transform_layer_norm_inputs a ns w b) hacc
  rcases hcall : cachedGraphCall accept st (_transform_layer_norm_inputs a ns w b)
    with ⟨res, st2, n⟩
  rw [hcall] at hg
  simp only at hg
  refine ⟨⟨zeros_like a (TorchDevice.cuda currentCudaDevice),
    ⟨[1, 1, 1, 1], eps, TorchDtype.float32, TorchDevice.cpu⟩, g⟩,
    ?_, rfl, rfl, rfl, fun h => by simp [zeros_like, h]⟩
  simp [layer_norm_impl, transformLayerNormInputsPy, make_graph_on_attrs,
    hcall, hg]

/-- C4 witness: the amended theorem at the concrete example. -/
theorem C4_output_shape_dtype_device_witness :
    ∃ s, (layer_norm_impl acceptAll 0 [] sampleA [64] (some sampleW)
        (some sampleB) defaultEps).result = Except.ok s ∧
      s.output.shape = sampleA.shape ∧ s.output.dtype = sampleA.dtype ∧
      s.output.device = TorchDevice.cuda 0 ∧
      (sampleA.device = TorchDevice.cuda 0 → s.output.device = sampleA.device) :=
  C4_output_shape_dtype_device acceptAll 0 [] sampleA sampleW sampleB [64]
    defaultEps rfl

/-- C5 counterexample: a zero extent in the normalized shape raises no
DegenerateShapeError (no such check exists): the canonicalizer returns a
descriptor with C = 0, the checker reaches the builder (one compilation
attempted even under a rejecting accelerator), and under an accepting
accelerator the call returns True and mutates the cache. -/
theorem C5_counterexample :
    (_transform_layer_norm_inputs degA [0] degW degB).1.size = [2, 0, 1, 1] ∧
    (layer_norm_checker true rejectAll [] degA [0] (some degW) (some degB)
      defaultEps).1 = Except.ok false ∧
    (layer_norm_checker true rejectAll [] degA [0] (some degW) (some degB)
      defaultEps).2.2 = 1 ∧
    (layer_norm_checker true acceptAll [] degA [0] (some degW) (some degB)
      defaultEps).1 = Except.ok true ∧
    ((layer_norm_checker true acceptAll [] degA [0] (some degW) (some degB)
      defaultEps).2.1).length = 1 := by
  exact ⟨rfl, rfl, rfl, rfl, rfl⟩

/-- C5 (amended): degenerate shapes are not rejected — with a zero extent
in the normalized shape the canonical C extent is 0 (strides (0, 1, 1, 1)),
nothing is raised, compilation IS attempted (the builder is invoked once on
a fresh key), and the checker returns Ok of the accelerator's verdict. -/
theorem C5_degenerate_shape_not_rejected (a w b : TorchTensor)
    (ns : List Nat) (accept : GraphKey → Bool) (st : GraphCacheState)
    (eps : Rat) (h0 : 0 ∈ ns)
    (hmiss : lruLookup st (_transform_layer_norm_inputs a ns w b) = none) :
    listProd ns = 0 ∧
    (_transform_layer_norm_inputs a ns w b).1.size
      = [listProd (pySliceDropLast a.shape ns.length), 0, 1, 1] ∧
    (_transform_layer_norm_inputs a ns w b).1.stride = [0, 1, 1, 1] ∧
    (layer_norm_checker true accept st a ns (some w) (some b) eps).2.2 = 1 ∧
    (layer_norm_checker true accept st a ns (some w) (some b) eps).1
      = Except.ok (accept (_transform_layer_norm_inputs a ns w b)) := by
  have hz : listProd ns = 0 := listProd_eq_zero ns h0
  refine ⟨hz, by simp [_transform_layer_norm_inputs, hz],
    by simp [_transform_layer_norm_inputs, hz], ?_⟩
  by_cases hacc : accept (_transform_layer_norm_inputs a ns w b) = true
  · have hcg : cachedGraphCall accept st (_transform_layer_norm_inputs a ns w b)
        = (Except.ok (_make_cudnn_layer_norm_graph_body
            (_transform_layer_norm_inputs a ns w b).1
            (_transform_layer_norm_inputs a ns w b).2.1
            (_transform_layer_norm_inputs a ns w b).2.2),
          ((_transform_layer_norm_inputs a ns w b,
            _make_cudnn_layer_norm_graph_body
              (_transform_layer_norm_inputs a ns w b).1
              (_transform_layer_norm_inputs a ns w b).2.1
              (_transform_layer_norm_inputs a ns w b).2.2) :: st).take 1024,
          1) := by
      unfold cachedGraphCall
      exact lruCallE_miss_ok 1024 _ st _ _ hmiss (by simp [buildGraphChecked, hacc])
    constructor <;>
      simp [layer_norm_checker, transformLayerNormInputsPy, make_graph_on_attrs,
        hcg, hacc]
  · have hcg : cachedGraphCall accept st (_transform_layer_norm_inputs a ns w b)
        = (Except.error PyError.cudnnGraphBuildError, st, 1) := by
      unfold cachedGraphCall
      exact lruCallE_miss_error 1024 _ st _ _ hmiss
        (by simp [buildGraphChecked, hacc])
    constructor <;>
      simp [layer_norm_checker, transformLayerNormInputsPy, make_graph_on_attrs,
        hcg, hacc]

/-- C5 witness: the amended theorem at the concrete degenerate input. -/
theorem C5_degenerate_shape_not_rejected_witness :
    listProd [0] = 0 ∧
    (_transform_layer_norm_inputs degA [0] degW degB).1.size
      = [listProd (pySliceDropLast degA.shape (List.length [0])), 0, 1, 1] ∧
    (_transform_layer_norm_inputs degA [0] degW degB).1.stride = [0, 1, 1, 1] ∧
    (layer_norm_checker true acceptAll [] degA [0] (some degW) (some degB)
      defaultEps).2.2 = 1 ∧
    (layer_norm_checker true acceptAll [] degA [0] (some degW) (some degB)
      defaultEps).1
      = Except.ok (acceptAll (_transform_layer_norm_inputs degA [0] degW degB)) :=
  C5_degenerate_shape_not_rejected degA degW degB [0] acceptAll [] defaultEps
    (by decide) rfl

/-- C6 counterexample: the checker can raise.  With weight=None (its
declared default) the AttributeError from `weight.dtype` inside
`_transform_layer_norm_inputs` is raised outside the try block and
propagates; and when the backend is unavailable the module never binds the
name `cudnn`, so the guard itself raises NameError instead of returning
False. -/
theorem C6_counterexample :
    (layer_norm_checker true acceptAll [] sampleA [64] none none
      defaultEps).1 = Except.error (PyError.attributeError noneNoDtypeMsg) ∧
    (layer_norm_checker false acceptAll [] sampleA [64] (some sampleW)
      (some sampleB) defaultEps).1
      = Except.error (PyError.nameError "name cudnn is not defined") := by
  exact ⟨rfl, rfl⟩

/-- C6 (amended): provided the name `cudnn` is bound (the registration path
ran) and weight and bias are tensors, the checker never raises: it returns
Ok of a boolean — False when the dry-run compilation fails on a fresh key,
True when the accelerator accepts (and True on any cache hit regardless of
the current accelerator verdict). -/
theorem C6_checker_never_raises (accept : GraphKey → Bool)
    (st : GraphCacheState) (a w b : TorchTensor) (ns : List Nat) (eps : Rat) :
    (∃ r : Bool, (layer_norm_checker true accept st a ns (some w) (some b)
      eps).1 = Except.ok r) ∧
    (lruLookup st (_transform_layer_norm_inputs a ns w b) = none →
      (layer_norm_checker true accept st a ns (some w) (some b) eps).1
        = Except.ok (accept (_transform_layer_norm_inputs a ns w b))) ∧
    (∀ g, lruLookup st (_transform_layer_norm_inputs a ns w b) = some g →
      (layer_norm_checker true accept st a ns (some w) (some b) eps).1
        = Except.ok true) := by
  refine ⟨?_, ?_, ?_⟩
  · rcases hcall : cachedGraphCall accept st (_transform_layer_norm_inputs a ns w b)
      with ⟨res, st2, n⟩
    cases res with
    | ok g =>
      exact ⟨true, by simp [layer_norm_checker, transformLayerNormInputsPy,
        make_graph_on_attrs, hcall]⟩
    | error e =>
      exact ⟨false, by simp [layer_norm_checker, transformLayerNormInputsPy,
        make_graph_on_attrs, hcall]⟩
  · intro hmiss
    by_cases hacc : accept (_transform_layer_norm_inputs a ns w b) = true
    · have hcg : cachedGraphCall accept st (_transform_layer_norm_inputs a ns w b)
          = (Except.ok (_make_cudnn_layer_norm_graph_body
              (_transform_layer_norm_inputs a ns w b).1
              (_transform_layer_norm_inputs a ns w b).2.1
              (_transform_layer_norm_inputs a ns w b).2.2),
            ((_transform_layer_norm_inputs a ns w b,
              _make_cudnn_layer_norm_graph_body
                (_transform_layer_norm_inputs a ns w b).1
                (_transform_layer_norm_inputs a ns w b).2.1
                (_transform_layer_norm_inputs a ns w b).2.2) :: st).take 1024,
            1) := by
        unfold cachedGraphCall
        exact lruCallE_miss_ok 1024 _ st _ _ hmiss
          (by simp [buildGraphChecked, hacc])
      simp [layer_norm_checker, transformLayerNormInputsPy, make_graph_on_attrs,
        hcg, hacc]
    · have hcg : cachedGraphCall accept st (_transform_layer_norm_inputs a ns w b)
          = (Except.error PyError.cudnnGraphBuildError, st, 1) := by
        unfold cachedGraphCall
        exact lruCallE_miss_error 1024 _ st _ _ hmiss
          (by simp [buildGraphChecked, hacc])
      simp [layer_norm_checker, transformLayerNormInputsPy, make_graph_on_attrs,
        hcg, hacc]
  · intro g hhit
    have hcg : cachedGraphCall accept st (_transform_layer_norm_inputs a ns w b)
        = (Except.ok g, (_transform_layer_norm_inputs a ns w b, g) ::
            lruRemove st (_transform_layer_norm_inputs a ns w b), 0) := by
      unfold cachedGraphCall
      exact lruCallE_hit 1024 _ st _ g hhit
    simp [layer_norm_checker, transformLayerNormInputsPy, make_graph_on_attrs,
      hcg]

/-- C6 witness: the amended theorem at the concrete example. -/
theorem C6_checker_never_raises_witness :
    (layer_norm_checker true acceptAll [] sampleA [64] (some sampleW)
      (some sampleB) defaultEps).1
      = Except.ok (acceptAll (_transform_layer_norm_inputs sampleA [64]
          sampleW sampleB)) :=
  (C6_checker_never_raises acceptAll [] sampleA sampleW sampleB [64]
    defaultEps).2.1 rfl

/-- C9: eps is not part of the cache key.  Two successful execution calls
whose canonical descriptor triples agree (possibly from distinct tensor
objects) but whose eps differ reuse the same compiled graph — the first
call compiles once, the second not at all — and each call materializes its
own fresh host epsilon buffer of shape (1, 1, 1, 1), dtype float32, device
cpu, holding that call's eps, bound to the graph's pass-by-value epsilon
placeholder. -/
theorem C9_eps_not_in_cache_key (accept : GraphKey → Bool) (cur1 cur2 : Int)
    (st : GraphCacheState) (a w b a2 w2 b2 : TorchTensor) (ns : List Nat)
    (eps1 eps2 : Rat)
    (hmiss : lruLookup st (_transform_layer_norm_inputs a ns w b) = none)
    (hacc : accept (_transform_layer_norm_inputs a ns w b) = true)
    (hkey : _transform_layer_norm_inputs a2 ns w2 b2
      = _transform_layer_norm_inputs a ns w b) :
    ∃ s1 s2,
      (layer_norm_impl accept cur1 st a ns (some w) (some b) eps1).result
        = Except.ok s1 ∧
      (layer_norm_impl accept cur1 st a ns (some w) (some b) eps1).compiles = 1 ∧
      (layer_norm_impl accept cur2
        (layer_norm_impl accept cur1 st a ns (some w) (some b) eps1).state
        a2 ns (some w2) (some b2) eps2).result = Except.ok s2 ∧
      (layer_norm_impl accept cur2
        (layer_norm_impl accept cur1 st a ns (some w) (some b) eps1).state
        a2 ns (some w2) (some b2) eps2).compiles = 0 ∧
      s2.graph = s1.graph ∧
      s1.epsilon_cpu = ⟨[1, 1, 1, 1], eps1, TorchDtype.float32, TorchDevice.cpu⟩ ∧
      s2.epsilon_cpu = ⟨[1, 1, 1, 1], eps2, TorchDtype.float32, TorchDevice.cpu⟩ ∧
      s1.graph.epsilon.is_pass_by_value = true ∧
      s1.graph.epsilon.dim = [1, 1, 1, 1] := by
  have hcg1 : cachedGraphCall accept st (_transform_layer_norm_inputs a ns w b)
      = (Except.ok (_make_cudnn_layer_norm_graph_body
          (_transform_layer_norm_inputs a ns w b).1
          (_transform_layer_norm_inputs a ns w b).2.1
          (_transform_layer_norm_inputs a ns w b).2.2),
        ((_transform_layer_norm_inputs a ns w b,
          _make_cudnn_layer_norm_graph_body
            (_transform_layer_norm_inputs a ns w b).1
            (_transform_layer_norm_inputs a ns w b).2.1
            (_transform_layer_norm_inputs a ns w b).2.2) :: st).take 1024,
        1) := by
    unfold cachedGraphCall
    exact lruCallE_miss_ok 1024 _ st _ _ hmiss (by simp [buildGraphChecked, hacc])
  have hr1 : layer_norm_impl accept cur1 st a ns (some w) (some b) eps1
      = ⟨Except.ok ⟨zeros_like a (TorchDevice.cuda cur1),
          ⟨[1, 1, 1, 1], eps1, TorchDtype.float32, TorchDevice.cpu⟩,
          _make_cudnn_layer_norm_graph_body
            (_transform_layer_norm_inputs a ns w b).1
            (_transform_layer_norm_inputs a ns w b).2.1
            (_transform_layer_norm_inputs a ns w b).2.2⟩,
        ((_transform_layer_norm_inputs a ns w b,
          _make_cudnn_layer_norm_graph_body
            (_transform_layer_norm_inputs a ns w b).1
            (_transform_layer_norm_inputs a ns w b).2.1
            (_transform_layer_norm_inputs a ns w b).2.2) :: st).take 1024,
        1⟩ := by
    simp [layer_norm_impl, transformLayerNormInputsPy, make_graph_on_attrs, hcg1]
  have hlook : lruLookup
      ((_transform_layer_norm_inputs a ns w b,
        _make_cudnn_layer_norm_graph_body
          (_transform_layer_norm_inputs a ns w b).1
          (_transform_layer_norm_inputs a ns w b).2.1
          (_transform_layer_norm_inputs a ns w b).2.2) :: st.take 1023)
      (_transform_layer_norm_inputs a ns w b)
      = some (_make_cudnn_layer_norm_graph_body
          (_transform_layer_norm_inputs a ns w b).1
          (_transform_layer_norm_inputs a ns w b).2.1
          (_transform_layer_norm_inputs a ns w b).2.2) :=
    lruLookup_head (_transform_layer_norm_inputs a ns w b)
      (_make_cudnn_layer_norm_graph_body
        (_transform_layer_norm_inputs a ns w b).1
        (_transform_layer_norm_inputs a ns w b).2.1
        (_transform_layer_norm_inputs a ns w b).2.2)
      (st.take 1023)
  have hcg2 : cachedGraphCall accept
      ((_transform_layer_norm_inputs a ns w b,
        _make_cudnn_layer_norm_graph_body
          (_transform_layer_norm_inputs a ns w b).1
          (_transform_layer_norm_inputs a ns w b).2.1
          (_transform_layer_norm_inputs a ns w b).2.2) :: st.take 1023)
      (_transform_layer_norm_inputs a ns w b)
      = (Except.ok (_make_cudnn_layer_norm_graph_body
          (_transform_layer_norm_inputs a ns w b).1
          (_transform_layer_norm_inputs a ns w b).2.1
          (_transform_layer_norm_inputs a ns w b).2.2),
        (_transform_layer_norm_inputs a ns w b,
          _make_cudnn_layer_norm_graph_body
            (_transform_layer_norm_inputs a ns w b).1
            (_transform_layer_norm_inputs a ns w b).2.1
            (_transform_layer_norm_inputs a ns w b).2.2) ::
          lruRemove ((_transform_layer_norm_inputs a ns w b,
            _make_cudnn_layer_norm_graph_body
              (_transform_layer_norm_inputs a ns w b).1
              (_transform_layer_norm_inputs a ns w b).2.1
              (_transform_layer_norm_inputs a ns w b).2.2) :: st.take 1023)
            (_transform_layer_norm_inputs a ns w b),
        0) := by
    unfold cachedGraphCall
    exact lruCallE_hit 1024 _ _ _ _ hlook
  refine ⟨⟨zeros_like a (TorchDevice.cuda cur1),
      ⟨[1, 1, 1, 1], eps1, TorchDtype.float32, TorchDevice.cpu⟩,
      _make_cudnn_layer_norm_graph_body
        (_transform_layer_norm_inputs a ns w b).1
        (_transform_layer_norm_inputs a ns w b).2.1
        (_transform_layer_norm_inputs a ns w b).2.2⟩,
    ⟨zeros_like a2 (TorchDevice.cuda cur2),
      ⟨[1, 1, 1, 1], eps2, TorchDtype.float32, TorchDevice.cpu⟩,
      _make_cudnn_layer_norm_graph_body
        (_transform_layer_norm_inputs a ns w b).1
        (_transform_layer_norm_inputs a ns w b).2.1
        (_transform_layer_norm_inputs a ns w b).2.2⟩,
    ?_, ?_, ?_, ?_, rfl, rfl, rfl, rfl, rfl⟩
  · rw [hr1]
  · rw [hr1]
  · rw [hr1]
    simp [layer_norm_impl, transformLayerNormInputsPy, make_graph_on_attrs,
      hkey, hcg2]
  · rw [hr1]
    simp [layer_norm_impl, transformLayerNormInputsPy, make_graph_on_attrs,
      hkey, hcg2]

/-- C9 witness: the theorem at the concrete example, with a second tensor
of different memory strides (a distinct buffer) and a different eps. -/
theorem C9_eps_not_in_cache_key_witness :
    ∃ s1 s2,
      (layer_norm_impl acceptAll 0 [] sampleA [64] (some sampleW)
        (some sampleB) defaultEps).result = Except.ok s1 ∧
      (layer_norm_impl acceptAll 0 [] sampleA [64] (some sampleW)
        (some sampleB) defaultEps).compiles = 1 ∧
      (layer_norm_impl acceptAll 0
        (layer_norm_impl acceptAll 0 [] sampleA [64] (some sampleW)
          (some sampleB) defaultEps).state
        sampleA2 [64] (some sampleW) (some sampleB) (3 / 1000)).result
        = Except.ok s2 ∧
      (layer_norm_impl acceptAll 0
        (layer_norm_impl acceptAll 0 [] sampleA [64] (some sampleW)
          (some sampleB) defaultEps).state
        sampleA2 [64] (some sampleW) (some sampleB) (3 / 1000)).compiles = 0 ∧
      s2.graph = s1.graph ∧
      s1.epsilon_cpu = ⟨[1, 1, 1, 1], defaultEps, TorchDtype.float32,
        TorchDevice.cpu⟩ ∧
      s2.epsilon_cpu = ⟨[1, 1, 1, 1], 3 / 1000, TorchDtype.float32,
        TorchDevice.cpu⟩ ∧
      s1.graph.epsilon.is_pass_by_value = true ∧
      s1.graph.epsilon.dim = [1, 1, 1, 1] :=
  C9_eps_not_in_cache_key acceptAll 0 0 [] sampleA sampleW sampleB sampleA2
    sampleW sampleB [64] defaultEps (3 / 1000) rfl rfl (by decide)

/-- The wrapper's argument conversion raises as soon as the argument list
contains a live torch.Tensor. -/
theorem wrapperConvertList_tensor (args rest : List GraphArg)
    (t : TorchTensor) (hmem : GraphArg.tensor t ∈ rest) :
    wrapperConvertList args rest
      = Except.error (PyError.attributeError tupleNoDeviceIndexMsg) := by
  induction rest with
  | nil => simp at hmem
  | cons a rest ih =>
    cases a with
    | tensor t2 => rfl
    | attrs d =>
      have hmem2 : GraphArg.tensor t ∈ rest := by
        rcases List.mem_cons.mp hmem with h1 | h1
        · exact absurd h1 (by simp)
        · exact h1
      simp [wrapperConvertList, wrapperConvertArg, ih hmem2]

/-- C10: whenever some positional argument of the wrapped graph builder is
a live torch.Tensor, the wrapper raises AttributeError — it evaluates
`args.device_index` on the argument tuple — before the cached function is
reached (no builder invocation, cache untouched); on the module's own call
paths the arguments are already-converted descriptors, which the wrapper
passes through unchanged to the cached builder. -/
theorem C10_wrapper_tensor_argument (args : List GraphArg) (t : TorchTensor)
    (hmem : GraphArg.tensor t ∈ args) :
    (wrapperConvertArgs args
      = Except.error (PyError.attributeError tupleNoDeviceIndexMsg)) ∧
    (∀ (accept : GraphKey → Bool) (st : GraphCacheState),
      _make_cudnn_layer_norm_graph accept st args
        = (Except.error (PyError.attributeError tupleNoDeviceIndexMsg), st, 0)) ∧
    (∀ a_4d weight_4d bias_4d : CudnnTensorAttributes,
      wrapperConvertArgs
        [GraphArg.attrs a_4d, GraphArg.attrs weight_4d, GraphArg.attrs bias_4d]
        = Except.ok
          [GraphArg.attrs a_4d, GraphArg.attrs weight_4d, GraphArg.attrs bias_4d]) ∧
    (∀ (accept : GraphKey → Bool) (st : GraphCacheState)
      (a_4d weight_4d bias_4d : CudnnTensorAttributes),
      _make_cudnn_layer_norm_graph accept st
        [GraphArg.attrs a_4d, GraphArg.attrs weight_4d, GraphArg.attrs bias_4d]
        = cachedGraphCall accept st (a_4d, weight_4d, bias_4d)) := by
  have hconv := wrapperConvertList_tensor args args t hmem
  refine ⟨hconv, ?_, ?_, ?_⟩
  · intro accept st
    simp [_make_cudnn_layer_norm_graph, wrapperConvertArgs, hconv]
  · intro a_4d weight_4d bias_4d
    rfl
  · intro accept st a_4d weight_4d bias_4d
    exact make_graph_on_attrs accept st a_4d weight_4d bias_4d

/-- C10 witness: a call whose first argument is a live tensor raises before
the cache; the concrete descriptor-triple call reaches the cache. -/
theorem C10_wrapper_tensor_argument_witness :
    (wrapperConvertArgs [GraphArg.tensor sampleA]
      = Except.error (PyError.attributeError tupleNoDeviceIndexMsg)) ∧
    (_make_cudnn_layer_norm_graph acceptAll [] [GraphArg.tensor sampleA]
      = (Except.error (PyError.attributeError tupleNoDeviceIndexMsg), [], 0)) := by
  have h := C10_wrapper_tensor_argument [GraphArg.tensor sampleA] sampleA
    (by simp)
  exact ⟨h.1, h.2.1 acceptAll []⟩

end CudnnLayerNormEx
